import Mathlib

/-!
# Verification of the teams-tui synchronization and presentation core

Shallow embedding of the Rust sources of `mikedixson/teams-tui`
(`src/api.rs`, `src/app.rs`, `src/image_display.rs`, `src/main.rs`,
`src/ui.rs`) together with proofs of the specification's claims about
the reconciliation loop, the viewport controller, the content
normalizer, and the image cache.

External collaborators (the HTTP transport, the terminal renderer, the
`chrono` date parser, the `unicode-width` table, the `image` decoder)
are modelled as opaque parameters, exactly as the spec treats them.
Machine integers (`u16`, `usize`) are modelled as `Nat`; every
arithmetic operation the embedded code performs is saturating or
in-range, so `Nat` subtraction (which saturates at zero) coincides with
the source semantics.
-/

namespace TeamsTui

/-! ## Data model (`src/api.rs`) -/

/-- `api.rs`: `ChatMember`. -/
structure ChatMember where
  id : Option String
  display_name : Option String
  email : Option String
deriving DecidableEq, Repr

/-- `api.rs`: `Chat`. -/
structure Chat where
  id : String
  topic : Option String
  chat_type : String
  last_updated : Option String
  members : List ChatMember
  cached_display_name : Option String
deriving DecidableEq, Repr

/-- `api.rs`: `MessageUser`. -/
structure MessageUser where
  display_name : Option String
deriving DecidableEq, Repr

/-- `api.rs`: `MessageFrom` (`from` is a Lean keyword, so the single
field is named `user` as in the source and the wrapper keeps its role). -/
structure MessageFrom where
  user : Option MessageUser
deriving DecidableEq, Repr

/-- `api.rs`: `MessageBody`. -/
structure MessageBody where
  content : Option String
  content_type : Option String
deriving DecidableEq, Repr

/-- `api.rs`: `MessageAttachment`. -/
structure MessageAttachment where
  id : Option String
  content_type : Option String
  content_url : Option String
  name : Option String
  thumbnail_url : Option String
deriving DecidableEq, Repr

/-- `api.rs`: `Message` (the Rust field `from` is rendered `from_`
because `from` is a Lean keyword). -/
structure Message where
  id : String
  created_date_time : String
  from_ : Option MessageFrom
  body : Option MessageBody
  attachments : List MessageAttachment
deriving DecidableEq, Repr

/-- `api.rs`: `MessageAttachment::is_image`: direct image MIME types,
or `reference`-typed files whose name carries an image extension. -/
def MessageAttachment.isImageAtt (a : MessageAttachment) : Bool :=
  match a.content_type with
  | some content_type =>
      let ct_lower := content_type.toLower
      ct_lower.startsWith "image/" ||
        (ct_lower == "reference" &&
          (match a.name with
           | some n =>
               let n_lower := n.toLower
               n_lower.endsWith ".png" || n_lower.endsWith ".jpg" ||
               n_lower.endsWith ".jpeg" || n_lower.endsWith ".gif" ||
               n_lower.endsWith ".webp" || n_lower.endsWith ".bmp"
           | none => false))
  | none => false

/-- `api.rs`: `MessageAttachment::get_image_url`: prefer the thumbnail,
fall back to the full content URL. -/
def MessageAttachment.get_image_url (a : MessageAttachment) : Option String :=
  match a.thumbnail_url with
  | some u => some u
  | none => a.content_url

/-! ## Image cache (`src/image_display.rs`)

The Rust cache stores decoded `DynamicImage` values in a
`HashMap<String, DynamicImage>`.  The decoded bitmap is opaque to every
cache operation, so images are modelled as `Nat`.  The map is modelled
as an association list whose keys are pairwise distinct in every
reachable state; `HashMap::remove` removes the single binding of a key
(`List.eraseP`), and `HashMap::insert` replaces any existing binding
(`List.filter` away the key, then append).  `keys().next()` returns an
arbitrary present key (`None` exactly on the empty map), so eviction is
parametrised by a choice function `pick` constrained to return a member
of the map whenever the map is nonempty. -/

/-- `image_display.rs`: `ImageCache` (images opaque, map as assoc list). -/
structure ImageCache where
  images : List (String × Nat)
  max_size : Nat
deriving Repr

/-- `image_display.rs`: `ImageCache::new`. -/
def ImageCache.new (max_size : Nat) : ImageCache :=
  { images := [], max_size := max_size }

/-- The contract of `HashMap::keys().next()`: on a nonempty map it
returns some key that is present in the map. -/
def ValidPick (pick : List (String × Nat) → Option String) : Prop :=
  ∀ l : List (String × Nat), l ≠ [] → ∃ k, pick l = some k ∧ k ∈ l.map Prod.fst

/-- One admissible `keys().next()` implementation: the first key. -/
def pickFirst (l : List (String × Nat)) : Option String :=
  l.head?.map Prod.fst

/-- `image_display.rs` `ImageCache::insert`, eviction step: if the map
is at (or beyond) capacity, remove the single entry holding the chosen
key; an empty map yields no key and nothing is removed. -/
def evictIfFull (pick : List (String × Nat) → Option String) (c : ImageCache) :
    List (String × Nat) :=
  if c.images.length ≥ c.max_size then
    match pick c.images with
    | some key => c.images.eraseP (fun p => p.1 == key)
    | none => c.images
  else c.images

/-- `image_display.rs`: `ImageCache::insert`: evict when at capacity,
then insert (replacing any existing binding of `url`). -/
def ImageCache.insert (pick : List (String × Nat) → Option String)
    (c : ImageCache) (url : String) (image : Nat) : ImageCache :=
  { c with images := (evictIfFull pick c).filter (fun p => p.1 != url) ++ [(url, image)] }

/-- `image_display.rs`: `ImageCache::get`. -/
def ImageCache.get (c : ImageCache) (url : String) : Option Nat :=
  (c.images.find? (fun p => p.1 == url)).map Prod.snd

/-- `image_display.rs`: `ImageCache::contains`. -/
def ImageCache.containsUrl (c : ImageCache) (url : String) : Bool :=
  c.images.any (fun p => p.1 == url)

/-- Replaying a sequence of `insert` calls against a fresh cache. -/
def ImageCache.insertAll (pick : List (String × Nat) → Option String)
    (c : ImageCache) (ops : List (String × Nat)) : ImageCache :=
  ops.foldl (fun acc p => acc.insert pick p.1 p.2) c

/-! ## Application state (`src/app.rs`)

`ratatui` / `ratatui-image` values are opaque to the state logic:
`DynamicImage` and `StatefulProtocol` are modelled as `Nat`, the
`ImagePicker` as `Option Unit` (present or construction-failed), and
`picker.new_resize_protocol` as an opaque conversion.  The terminal
layout rectangles (`chat_list_area`, `messages_area`) and the pane-focus
enums, which only route mouse input, are outside the embedding. -/

/-- `app.rs`: `ViewableImage`. -/
structure ViewableImage where
  name : String
  url : String
deriving DecidableEq, Repr

/-- Opaque model of `ratatui-image`'s `Picker::new_resize_protocol`. -/
def newResizeProtocol (image : Nat) : Nat := image

/-- `app.rs`: `App` (the fields the synchronization pipeline reads or
writes; images, protocols and the picker are opaque as described above). -/
structure App where
  chats : List Chat
  status : String
  selected_index : Nat
  current_user_name : Option String
  messages : List Message
  loading_messages : Bool
  input_mode : Bool
  input_buffer : String
  scroll_offset : Nat
  max_scroll : Nat
  snap_to_bottom : Bool
  image_picker : Option Unit
  image_cache : ImageCache
  image_protocols : List (String × Nat)
  viewing_image : Option ViewableImage
  current_image_protocol : Option Nat
  loading_image : Bool
  image_error : Option String
  viewable_images : List ViewableImage
  selected_image_index : Nat
deriving Repr

/-- `app.rs`: `App::new` (picker construction modelled as succeeding,
matching the fallback that always yields a picker). -/
def App.new : App where
  chats := []
  status := "Loading..."
  selected_index := 0
  current_user_name := none
  messages := []
  loading_messages := false
  input_mode := false
  input_buffer := ""
  scroll_offset := 0
  max_scroll := 0
  snap_to_bottom := true
  image_picker := some ()
  image_cache := ImageCache.new 50
  image_protocols := []
  viewing_image := none
  current_image_protocol := none
  loading_image := false
  image_error := none
  viewable_images := []
  selected_image_index := 0

/-- `app.rs`: `App::update_viewable_images`: project the image
attachments of the current messages, in message order then attachment
order, and reset the selection. -/
def App.update_viewable_images (a : App) : App :=
  { a with
    viewable_images := a.messages.flatMap (fun m =>
      m.attachments.filterMap (fun att =>
        if att.isImageAtt then
          match att.get_image_url with
          | some url => some { name := att.name.getD "image", url := url }
          | none => none
        else none)),
    selected_image_index := 0 }

/-- `app.rs`: `App::set_messages`: replace the list, clear the loading
flag, recompute the viewable images. -/
def App.set_messages (a : App) (messages : List Message) : App :=
  App.update_viewable_images { a with messages := messages, loading_messages := false }

/-- `app.rs`: `App::set_image_protocol`. -/
def App.set_image_protocol (a : App) (protocol : Nat) : App :=
  { a with current_image_protocol := some protocol, loading_image := false,
           image_error := none }

/-- `app.rs`: `App::set_image_error` (defined by the source but never
called from the merge loop in `main.rs`). -/
def App.set_image_error (a : App) (error : String) : App :=
  { a with loading_image := false, image_error := some error }

/-- `app.rs`: `App::start_viewing_image`. -/
def App.start_viewing_image (a : App) (image : ViewableImage) : App :=
  { a with status := "Loading image: " ++ image.name ++ "...",
           viewing_image := some image, loading_image := true,
           current_image_protocol := none, image_error := none }

/-- `app.rs`: `App::stop_viewing_image`. -/
def App.stop_viewing_image (a : App) : App :=
  { a with viewing_image := none, current_image_protocol := none,
           loading_image := false, image_error := none }

/-! ## The reconciliation merges (`src/main.rs`) -/

/-- `main.rs:191-211`: draining one message snapshot `(chat_index,
messages)`: apply only when the tagged index is still selected, and
within that guard skip the update when neither the length nor the last
message id changed. -/
def applyMessageResult (a : App) (chat_index : Nat) (messages : List Message) : App :=
  if chat_index = a.selected_index then
    let should_update : Bool :=
      if a.messages.length ≠ messages.length then true
      else
        match a.messages.getLast?, messages.getLast? with
        | some curr, some nw => decide (curr.id ≠ nw.id)
        | none, none => false
        | _, _ => true
    if should_update then
      { a.set_messages messages with snap_to_bottom := true }
    else a
  else a

/-- `main.rs:214-229`: draining one image result `(url, bytes)`: apply
only when the viewer still shows that url; decode via the opaque `image`
crate (`decode`); on success prepare a protocol (when a picker exists);
on decode failure only the loading flag is cleared. -/
def applyImageResult (decode : List Nat → Option Nat) (a : App)
    (url : String) (bytes : List Nat) : App :=
  match a.viewing_image with
  | some viewing =>
      if viewing.url = url then
        match decode bytes with
        | some dyn_img =>
            match a.image_picker with
            | some _ => a.set_image_protocol (newResizeProtocol dyn_img)
            | none => a
        | none => { a with loading_image := false }
      else a
  | none => a

/-- `main.rs:128-139` (`spawn_image_download`): the background download
task posts `(url, bytes)` on success only; a token failure or download
failure produces no channel message at all. -/
def imageDownloadTask (token : Option String) (downloaded : Option (List Nat))
    (url : String) : Option (String × List Nat) :=
  match token with
  | some _ =>
      match downloaded with
      | some bytes => some (url, bytes)
      | none => none
  | none => none

/-- `main.rs:148-154`: the background message-fetch task performs a
single attempt; a token or fetch failure produces no channel message and
no retry. -/
def messageFetchTask (token : Option String) (fetched : Option (List Message))
    (chat_index : Nat) : Option (Nat × List Message) :=
  match token with
  | some _ =>
      match fetched with
      | some messages => some (chat_index, messages)
      | none => none
  | none => none

/-- `main.rs:297-330`: the background send task: one `send_message`
attempt; only on its success are the follow-up message reload and chat
refresh attempted (each itself one-shot, posting on its channel only on
success); a token failure or a send failure produces no channel message
on either channel and no retry.  Returns the pair (message-channel
post, chat-channel post). -/
def sendMessageTask (token : Option String) (sendOk : Bool)
    (refetched : Option (List Message))
    (chats : Option (List Chat × Option String)) (chat_index : Nat) :
    Option (Nat × List Message) × Option (List Chat × Option String) :=
  match token with
  | some _ =>
      if sendOk then
        ((match refetched with
          | some messages => some (chat_index, messages)
          | none => none),
         chats)
      else (none, none)
  | none => (none, none)

/-! ## Viewport scroll recomputation (`src/ui.rs:448-485`) -/

/-- `ui.rs:448-485`: recompute `(max_scroll, scroll_offset)` from the
total rendered line count, the viewport height (pane height minus
border rows), the snap flag and the previous offset.  All source
arithmetic is `u16` with saturating subtraction and is capped below
`total_lines`, so `Nat` arithmetic coincides with it. -/
def drawScroll (total_lines viewport_height : Nat) (snap_to_bottom : Bool)
    (scroll_offset : Nat) : Nat × Nat :=
  let max_scroll := if total_lines > viewport_height
    then total_lines - viewport_height else 0
  if snap_to_bottom then
    let offset := if total_lines > viewport_height then
        min (total_lines - viewport_height + 5) (total_lines - 1)
      else 0
    (max max_scroll offset, offset)
  else
    (max_scroll, min scroll_offset max_scroll)

/-! ## Content normalizer: word wrap (`src/ui.rs:303-333`)

Strings at the wrapping stage are modelled as lists of chars; Rust's
`String::len` is the UTF-8 byte count, `Σ Char.utf8Size`.  The wrap
operates on the `split_whitespace` output of each source line, so a
rendered line is modelled as the list of whole words it packs, joined
with single spaces for measuring.  Terminal display width
(`unicode-width`) is an opaque per-char column count `dw`; the only
fact used about it is `dw c ≤ c.utf8Size` (no character occupies more
columns than UTF-8 bytes: width-2 glyphs all encode in ≥ 3 bytes). -/

/-- A word: a maximal whitespace-free run, as produced by
`split_whitespace`. -/
abbrev Word := List Char

/-- Rust `String::len` (UTF-8 bytes) of a word. -/
def strBytes (w : Word) : Nat := (w.map Char.utf8Size).sum

/-- Byte length of a line of words joined by single spaces
(`current_line.len()` in the source); `[]` measures 0. -/
def lineBytes (ws : List Word) : Nat := (ws.map strBytes).sum + ws.length - 1

/-- `ui.rs:313-323`, one iteration of the word loop: on overflow push
the current line (possibly empty) and restart from the word; otherwise
append the word (after a space when the line is nonempty). -/
def wrapStep (max_line_width : Nat) (acc : List (List Word) × List Word)
    (w : Word) : List (List Word) × List Word :=
  if lineBytes acc.2 + strBytes w + 1 > max_line_width then (acc.1 ++ [acc.2], [w])
  else (acc.1, acc.2 ++ [w])

/-- `ui.rs:324-326`: after the loop, push the current line if nonempty. -/
def wrapFinish (acc : List (List Word) × List Word) : List (List Word) :=
  if acc.2 = [] then acc.1 else acc.1 ++ [acc.2]

/-- Greedy wrap of one source line's words. -/
def wrapWords (max_line_width : Nat) (ws : List Word) : List (List Word) :=
  wrapFinish (ws.foldl (wrapStep max_line_width) ([], []))

/-- `ui.rs:303-333`: wrap every source line of the cleaned content; when
nothing was produced (empty content, `ui.rs:306-308` and `329-332`)
yield exactly one empty line. -/
def wrapBody (max_line_width : Nat) (srcLines : List (List Word)) :
    List (List Word) :=
  let wrapped := (srcLines.map (wrapWords max_line_width)).flatten
  if wrapped = [] then [[]] else wrapped

/-- `ui.rs:113`: `(width as f32 * 0.9) as usize`.  For every width
below 2^16 (the `u16` pane width) this f32 computation equals
⌊9·width/10⌋, checked exhaustively, so the embedding uses the exact
rational form. -/
def maxLineWidth (width : Nat) : Nat := width * 9 / 10

/-- Display-column count of a word under a column measure `dw`. -/
def dwStr (dw : Char → Nat) (w : Word) : Nat := (w.map dw).sum

/-- The rendered text of a wrapped line: its words joined by single
spaces. -/
def renderLine : List Word → Word
  | [] => []
  | [w] => w
  | w :: x :: xs => w ++ ' ' :: renderLine (x :: xs)

/-! ## Content normalizer: alignment (`src/ui.rs:336-442`) -/

/-- A run of ASCII spaces (`" ".repeat(padding)`). -/
def spaces (n : Nat) : Word := List.replicate n ' '

/-- `ui.rs:348-369`: a header line is left-padded by
`width.saturating_sub(header.len())` spaces — byte length — when the
message is the current user's, and is unpadded otherwise. -/
def alignHeaderLine (is_me : Bool) (width : Nat) (header : Word) : Word :=
  if is_me then spaces (width - strBytes header) ++ header else header

/-- `ui.rs:373-385`: a body line is left-padded by
`width.saturating_sub(line.len())` spaces — byte length — when the
message is the current user's, and is unpadded otherwise. -/
def alignBodyLine (is_me : Bool) (width : Nat) (line : Word) : Word :=
  if is_me then spaces (width - strBytes line) ++ line else line

/-- `ui.rs:396-434`: an attachment-indicator line is left-padded by
`width.saturating_sub(indicator.width())` spaces — display columns via
`unicode-width`, modelled by `dw` — when the message is the current
user's, and is unpadded otherwise. -/
def alignIndicatorLine (dw : Char → Nat) (is_me : Bool) (width : Nat)
    (indicator : Word) : Word :=
  if is_me then spaces (width - dwStr dw indicator) ++ indicator else indicator

/-! ## Content normalizer: header insertion (`src/ui.rs:119-149`) -/

/-- The fields of a parsed timestamp that the `"%Y-%m-%d %H"` hour-key
comparison in `ui.rs:137-144` depends on; two `chrono` datetimes format
equally under `"%Y-%m-%d %H"` exactly when these fields agree. -/
structure DateParts where
  year : Int
  month : Nat
  day : Nat
  hour : Nat
deriving DecidableEq, Repr

/-- `ui.rs:121-127`: the sender display name with `"Unknown"` fallback. -/
def senderName (m : Message) : String :=
  match m.from_ with
  | some f =>
      match f.user with
      | some u => u.display_name.getD "Unknown"
      | none => "Unknown"
  | none => "Unknown"

/-- `ui.rs:135-146`: show a header when the sender changed or when both
timestamps parse and their calendar hours differ (an unparsable
timestamp never produces a time gap). -/
def showHeader (last_sender : Option String) (last_time : Option DateParts)
    (sender : String) (time : Option DateParts) : Bool :=
  let same_sender := decide (last_sender = some sender)
  let significant_time_gap :=
    match time, last_time with
    | some curr, some last => decide (curr ≠ last)
    | _, _ => false
  !same_sender || significant_time_gap

/-- The per-message header decisions of the render loop, threading
`last_sender` / `last_message_time` exactly as `ui.rs:146-149` does
(both are overwritten on every message, parsed or not); `parse` is the
opaque `chrono` RFC-3339 parser projected to the hour key. -/
def headerFlags (parse : String → Option DateParts) :
    Option String → Option DateParts → List Message → List Bool
  | _, _, [] => []
  | last_sender, last_time, m :: rest =>
      showHeader last_sender last_time (senderName m) (parse m.created_date_time) ::
        headerFlags parse (some (senderName m)) (parse m.created_date_time) rest

/-- `ui.rs:120`: the rendered window — the first 100 stored messages
(the service returns newest first), reversed to oldest-first. -/
def renderOrder (messages : List Message) : List Message :=
  (messages.take 100).reverse

/-! ## Mark-read retry (spec §5)

Modelled from the spec: the mark-chat-read operation and its retry loop
are missing from the sources under `src/` (they exist only in a
superseded revision of the app, referenced by
`tests/app_integration.rs`); the spec specifies a fixed budget of 3
attempts absorbing transient precondition failures, stopping at the
first success. -/

/-- Modelled from the spec: the retry loop.  `attemptOk i` is the
outcome of the i-th attempt; returns (succeeded, attempts made). -/
def retryLoop (attemptOk : Nat → Bool) : Nat → Nat → Bool × Nat
  | _, 0 => (false, 0)
  | i, budget + 1 =>
      if attemptOk i then (true, 1)
      else
        let r := retryLoop attemptOk (i + 1) budget
        (r.1, r.2 + 1)

/-- Modelled from the spec: mark-read with its default budget of 3. -/
def markReadWithRetry (attemptOk : Nat → Bool) : Bool × Nat :=
  retryLoop attemptOk 0 3

/-- A sample message used by concrete witnesses. -/
def sampleMessage : Message where
  id := "m1"
  created_date_time := "2025-01-01T10:00:00Z"
  from_ := some { user := some { display_name := some "Alice" } }
  body := some { content := some "Hello", content_type := some "text" }
  attachments := []

/-- A second sample message: same sender and timestamp, different id. -/
def sampleMessage2 : Message where
  id := "m2"
  created_date_time := "2025-01-01T10:00:00Z"
  from_ := some { user := some { display_name := some "Alice" } }
  body := some { content := some "Hi again", content_type := some "text" }
  attachments := []

/-- The hour key of the sample timestamp. -/
def sampleDate : DateParts where
  year := 2025
  month := 1
  day := 1
  hour := 10

/-- A sample parser recognizing exactly the sample timestamp. -/
def sampleParse (s : String) : Option DateParts :=
  if s = "2025-01-01T10:00:00Z" then some sampleDate else none

/-! # Theorems -/

lemma validPick_pickFirst : ValidPick pickFirst := by
  intro l hl
  match l with
  | [] => exact absurd rfl hl
  | p :: rest => exact ⟨p.1, rfl, List.mem_map_of_mem Prod.fst (List.mem_cons_self p rest)⟩

/-- At capacity (with a nonempty map), eviction removes exactly one entry. -/
lemma evictIfFull_length_of_full (pick : List (String × Nat) → Option String)
    (hpick : ValidPick pick) (c : ImageCache)
    (hfull : c.images.length = c.max_size) (hpos : 1 ≤ c.max_size) :
    (evictIfFull pick c).length + 1 = c.images.length := by
  have hne : c.images ≠ [] := by
    intro h
    rw [h] at hfull
    simp at hfull
    omega
  obtain ⟨k, hk, hkmem⟩ := hpick c.images hne
  obtain ⟨p, hpmem, hpfst⟩ := List.mem_map.mp hkmem
  unfold evictIfFull
  rw [if_pos (le_of_eq hfull.symm), hk]
  exact List.length_eraseP_add_one hpmem (by simp [hpfst])

/-- One `insert` keeps the size within a positive capacity. -/
lemma insert_length_le (pick : List (String × Nat) → Option String)
    (hpick : ValidPick pick) (c : ImageCache) (url : String) (image : Nat)
    (hcap : 1 ≤ c.max_size) (hlen : c.images.length ≤ c.max_size) :
    (c.insert pick url image).images.length ≤ c.max_size := by
  have hfilter : ∀ l : List (String × Nat),
      (l.filter (fun p => p.1 != url)).length ≤ l.length :=
    fun l => List.length_filter_le _ l
  unfold ImageCache.insert
  simp only [List.length_append, List.length_cons, List.length_nil]
  rcases lt_or_eq_of_le hlen with hlt | heq
  · have : evictIfFull pick c = c.images := by
      unfold evictIfFull
      rw [if_neg (by omega)]
    rw [this]
    have := hfilter c.images
    omega
  · have h1 := evictIfFull_length_of_full pick hpick c heq hcap
    have := hfilter (evictIfFull pick c)
    omega

lemma insert_max_size (pick : List (String × Nat) → Option String)
    (c : ImageCache) (url : String) (image : Nat) :
    (c.insert pick url image).max_size = c.max_size := rfl

/-- Size bound through an arbitrary sequence of inserts. -/
lemma insertAll_length_le (pick : List (String × Nat) → Option String)
    (hpick : ValidPick pick) (ops : List (String × Nat)) :
    ∀ c : ImageCache, 1 ≤ c.max_size → c.images.length ≤ c.max_size →
      (c.insertAll pick ops).images.length ≤ (c.insertAll pick ops).max_size ∧
      (c.insertAll pick ops).max_size = c.max_size := by
  induction ops with
  | nil => intro c hcap hlen; exact ⟨hlen, rfl⟩
  | cons op rest ih =>
      intro c hcap hlen
      have hstep := insert_length_le pick hpick c op.1 op.2 hcap hlen
      have h1 := ih (c.insert pick op.1 op.2)
        (by rw [insert_max_size]; exact hcap)
        (by rw [insert_max_size]; exact hstep)
      simpa [ImageCache.insertAll] using h1

/-- C3 counterexample: with a configured capacity of 0, a single insert
into the fresh cache yields one cached entry, exceeding the capacity
(`keys().next()` on the empty map returns nothing, so nothing is
evicted and the entry is stored regardless). -/
theorem cache_bound_counterexample :
    (ImageCache.new 0).max_size = 0 ∧
    ((ImageCache.new 0).insert pickFirst "a" 7).images.length = 1 :=
  ⟨rfl, rfl⟩

/-- C3 (amended): for every configured capacity ≥ 1 and any admissible
eviction choice, after any sequence of `insert` calls against a fresh
cache the number of entries never exceeds the capacity; and an insert
performed on a cache at capacity evicts exactly one existing entry
before inserting. -/
theorem cache_bound (cap : Nat) (hcap : 1 ≤ cap)
    (pick : List (String × Nat) → Option String) (hpick : ValidPick pick)
    (ops : List (String × Nat)) :
    ((ImageCache.new cap).insertAll pick ops).images.length ≤ cap ∧
    (∀ c : ImageCache, c.max_size = cap → c.images.length = cap →
      (evictIfFull pick c).length + 1 = c.images.length) := by
  constructor
  · have h := insertAll_length_le pick hpick ops (ImageCache.new cap) hcap
      (by simp [ImageCache.new])
    calc ((ImageCache.new cap).insertAll pick ops).images.length
        ≤ ((ImageCache.new cap).insertAll pick ops).max_size := h.1
      _ = cap := by rw [h.2]; rfl
  · intro c hms hlen
    exact evictIfFull_length_of_full pick hpick c (by omega) (by omega)

/-- C3 witness: capacity 2, three inserts, size stays within 2. -/
theorem cache_bound_witness :
    ((ImageCache.new 2).insertAll pickFirst
      [("a", 1), ("b", 2), ("c", 3)]).images.length ≤ 2 :=
  (cache_bound 2 (by decide) pickFirst validPick_pickFirst
    [("a", 1), ("b", 2), ("c", 3)]).1

lemma find?_filtered_append (url : String) (image : Nat) :
    ∀ l : List (String × Nat),
      ((l.filter (fun p => p.1 != url)) ++ [(url, image)]).find?
        (fun p => p.1 == url) = some (url, image) := by
  intro l
  induction l with
  | nil => simp [List.find?]
  | cons x xs ih =>
      by_cases hx : x.1 = url
      · simp only [List.filter_cons, hx]
        simp only [bne_self_eq_false, Bool.false_eq_true, if_false]
        exact ih
      · simp only [List.filter_cons]
        have hbne : (x.1 != url) = true := by simp [hx]
        rw [if_pos hbne, List.cons_append, List.find?_cons_of_neg _ (by simp [hx])]
        exact ih

/-- C10: immediately after `insert(url, image)` — for every prior cache
state, capacity, and eviction choice — `contains(url)` holds and
`get(url)` returns the image just inserted (the eviction step runs
before the insertion, so it can never remove the new entry). -/
theorem cache_get_after_insert (pick : List (String × Nat) → Option String)
    (c : ImageCache) (url : String) (image : Nat) :
    (c.insert pick url image).containsUrl url = true ∧
    (c.insert pick url image).get url = some image := by
  unfold ImageCache.insert ImageCache.containsUrl ImageCache.get
  constructor
  · simp [List.any_append]
  · rw [find?_filtered_append url image (evictIfFull pick c)]
    rfl

/-- C1: a message snapshot tagged with a chat index other than the
currently selected one is discarded without mutating any state. -/
theorem stale_discard (a : App) (chat_index : Nat) (messages : List Message)
    (h : chat_index ≠ a.selected_index) :
    applyMessageResult a chat_index messages = a := by
  unfold applyMessageResult
  rw [if_neg h]

/-- C1 witness: a snapshot tagged for chat 1 while chat 0 is selected
leaves the fresh app state untouched. -/
theorem stale_discard_witness :
    applyMessageResult App.new 1 [sampleMessage] = App.new :=
  stale_discard App.new 1 [sampleMessage] (by decide)

lemma should_update_spec (old new : List Message) :
    ((if old.length ≠ new.length then true
      else
        match old.getLast?, new.getLast? with
        | some curr, some nw => decide (curr.id ≠ nw.id)
        | none, none => false
        | _, _ => true) = true)
    ↔ (new.length ≠ old.length ∨
        new.getLast?.map Message.id ≠ old.getLast?.map Message.id) := by
  by_cases hlen : old.length = new.length
  · rw [if_neg (by omega)]
    rcases List.eq_nil_or_concat old with hO | ⟨o, curr, hO⟩
    · have hN : new = [] := by
        subst hO
        exact List.eq_nil_of_length_eq_zero (by simpa using hlen.symm)
      subst hO hN
      simp
    · rcases List.eq_nil_or_concat new with hN | ⟨n, nw, hN⟩
      · subst hN
        subst hO
        simp at hlen
      · subst hO hN
        simp only [List.concat_eq_append, List.getLast?_concat,
          Option.map_some', ne_eq, Option.some_inj, decide_eq_true_eq]
        constructor
        · intro hid
          exact Or.inr (fun hcontra => hid hcontra.symm)
        · intro hor
          rcases hor with hl | hid
          · exact absurd (by simpa using hlen.symm) hl
          · exact fun hcontra => hid hcontra.symm
  · rw [if_pos (by omega)]
    simp only [true_iff]
    left
    omega

/-- C6: when the snapshot's tag matches the selected chat, the update is
applied (messages replaced and a scroll snap forced) precisely when the
new list differs in length or in the id of the last message; when both
agree the merge leaves the whole state, in particular the message list
and the snap flag, unchanged. -/
theorem noop_poll_short_circuit (a : App) (chat_index : Nat)
    (messages : List Message) (h : chat_index = a.selected_index) :
    ((messages.length = a.messages.length ∧
      messages.getLast?.map Message.id = a.messages.getLast?.map Message.id) →
        applyMessageResult a chat_index messages = a) ∧
    ((messages.length ≠ a.messages.length ∨
      messages.getLast?.map Message.id ≠ a.messages.getLast?.map Message.id) →
        (applyMessageResult a chat_index messages).messages = messages ∧
        (applyMessageResult a chat_index messages).snap_to_bottom = true) := by
  unfold applyMessageResult
  rw [if_pos h]
  constructor
  · intro hsame
    have hfalse := (not_iff_not.mpr (should_update_spec a.messages messages)).mpr
      (by push_neg; exact hsame)
    rw [Bool.not_eq_true] at hfalse
    rw [hfalse]
    rfl
  · intro hdiff
    have htrue := (should_update_spec a.messages messages).mpr hdiff
    rw [htrue]
    exact ⟨rfl, rfl⟩

/-- C6 witness: a one-message snapshot for the selected (empty) chat is
applied: messages replaced and snap forced. -/
theorem noop_poll_short_circuit_witness :
    (applyMessageResult App.new 0 [sampleMessage]).messages = [sampleMessage] ∧
    (applyMessageResult App.new 0 [sampleMessage]).snap_to_bottom = true :=
  (noop_poll_short_circuit App.new 0 [sampleMessage] rfl).2 (Or.inl (by decide))

/-- C2 counterexample: snapping with 3 total lines in a 10-line
viewport.  The claim's overshoot target is `min (maxScroll + 5) (T - 1)
= min (0 + 5) 2 = 2`, but the code only applies the overshoot when
`T > H` and here leaves both the offset and `maxScroll` at 0. -/
theorem scroll_clamp_counterexample :
    drawScroll 3 10 true 0 = (0, 0) ∧
    ¬ (min ((3 - 10) + 5) (3 - 1) ≤ (drawScroll 3 10 true 0).1) := by
  constructor
  · rfl
  · decide

/-- C2 (amended): after the draw recomputation, `0 ≤ scrollOffset ≤
maxScroll` always holds; when not snapping, `maxScroll = max 0 (T - H)`
and the offset is the previous one clamped to it; when snapping with
`T > H`, `maxScroll` is raised to at least the overshoot target
`min (max 0 (T - H) + 5) (T - 1)` (written below with `Nat`
subtraction, which saturates and therefore is exactly `max 0 (· - ·)`);
when snapping with `T ≤ H`, both the offset and `maxScroll` are 0 (no
overshoot is applied). -/
theorem scroll_clamp (T H : Nat) (snap : Bool) (offset : Nat) :
    (drawScroll T H snap offset).2 ≤ (drawScroll T H snap offset).1 ∧
    (snap = false →
      (drawScroll T H snap offset).1 = T - H ∧
      (drawScroll T H snap offset).2 = min offset (drawScroll T H snap offset).1) ∧
    (snap = true → H < T →
      min ((T - H) + 5) (T - 1) ≤ (drawScroll T H snap offset).1) ∧
    (snap = true → T ≤ H → drawScroll T H snap offset = (0, 0)) := by
  cases snap with
  | false =>
      have hd : drawScroll T H false offset =
          (if T > H then T - H else 0,
           min offset (if T > H then T - H else 0)) := rfl
      refine ⟨?_, fun _ => ⟨?_, ?_⟩, fun h => by simp at h, fun h => by simp at h⟩
      · rw [hd]
        exact min_le_right _ _
      · rw [hd]
        split_ifs with h <;> omega
      · rw [hd]
  | true =>
      have hd : drawScroll T H true offset =
          (max (if T > H then T - H else 0)
             (if T > H then min (T - H + 5) (T - 1) else 0),
           if T > H then min (T - H + 5) (T - 1) else 0) := rfl
      refine ⟨?_, fun h => by simp at h, fun _ hTH => ?_, fun _ hTH => ?_⟩
      · rw [hd]
        split_ifs with h
        · exact le_max_right _ _
        · simp
      · rw [hd]
        simp only [if_pos hTH]
        exact le_max_right _ _
      · rw [hd]
        have h : ¬ T > H := by omega
        simp [h]

/-- C2 witness: snapping with 40 lines in a 10-line viewport raises
`maxScroll` to at least the overshoot target. -/
theorem scroll_clamp_witness :
    min ((40 - 10) + 5) (40 - 1) ≤ (drawScroll 40 10 true 7).1 :=
  (scroll_clamp 40 10 true 7).2.2.1 rfl (by decide)

lemma lineBytes_nil : lineBytes [] = 0 := rfl

lemma lineBytes_append (ws : List Word) (w : Word) :
    lineBytes (ws ++ [w]) =
      if ws = [] then strBytes w else lineBytes ws + strBytes w + 1 := by
  unfold lineBytes
  rcases ws with _ | ⟨x, xs⟩
  · simp
  · simp only [List.map_append, List.map_cons, List.sum_append, List.sum_cons,
      List.map_nil, List.sum_nil, List.length_append, List.length_cons,
      List.length_nil, List.cons_append, reduceCtorEq, if_false]
    omega

lemma wrap_flatten_aux (maxW : Nat) :
    ∀ (ws : List Word) (ls : List (List Word)) (cur : List Word),
      (wrapFinish (ws.foldl (wrapStep maxW) (ls, cur))).flatten =
        ls.flatten ++ cur ++ ws := by
  intro ws
  induction ws with
  | nil =>
      intro ls cur
      rw [List.foldl_nil]
      unfold wrapFinish
      dsimp only
      split_ifs with h
      · simp [h]
      · simp
  | cons w rest ih =>
      intro ls cur
      rw [List.foldl_cons]
      by_cases h : lineBytes cur + strBytes w + 1 > maxW
      · rw [show wrapStep maxW (ls, cur) w = (ls ++ [cur], [w]) by
          simp [wrapStep, h]]
        rw [ih (ls ++ [cur]) [w]]
        simp
      · rw [show wrapStep maxW (ls, cur) w = (ls, cur ++ [w]) by
          simp [wrapStep, h]]
        rw [ih ls (cur ++ [w])]
        simp

lemma wrap_good_aux (maxW : Nat) (S : List Word) :
    ∀ (ws : List Word) (ls : List (List Word)) (cur : List Word),
      (∀ w ∈ ws, w ∈ S) →
      (∀ l ∈ ls, lineBytes l ≤ maxW ∨ ∃ w ∈ S, l = [w]) →
      (lineBytes cur ≤ maxW ∨ ∃ w ∈ S, cur = [w]) →
      ∀ l ∈ wrapFinish (ws.foldl (wrapStep maxW) (ls, cur)),
        lineBytes l ≤ maxW ∨ ∃ w ∈ S, l = [w] := by
  intro ws
  induction ws with
  | nil =>
      intro ls cur _ hls hcur l hl
      rw [List.foldl_nil] at hl
      unfold wrapFinish at hl
      dsimp only at hl
      split_ifs at hl with h
      · exact hls l hl
      · rcases List.mem_append.mp hl with h1 | h1
        · exact hls l h1
        · rw [List.mem_singleton.mp h1]
          exact hcur
  | cons w rest ih =>
      intro ls cur hws hls hcur l hl
      rw [List.foldl_cons] at hl
      by_cases h : lineBytes cur + strBytes w + 1 > maxW
      · rw [show wrapStep maxW (ls, cur) w = (ls ++ [cur], [w]) by
          simp [wrapStep, h]] at hl
        refine ih (ls ++ [cur]) [w]
          (fun x hx => hws x (List.mem_cons_of_mem _ hx)) ?_ ?_ l hl
        · intro l' hl'
          rcases List.mem_append.mp hl' with h1 | h1
          · exact hls l' h1
          · rw [List.mem_singleton.mp h1]
            exact hcur
        · exact Or.inr ⟨w, hws w (List.mem_cons_self _ _), rfl⟩
      · rw [show wrapStep maxW (ls, cur) w = (ls, cur ++ [w]) by
          simp [wrapStep, h]] at hl
        refine ih ls (cur ++ [w])
          (fun x hx => hws x (List.mem_cons_of_mem _ hx)) hls ?_ l hl
        left
        rw [lineBytes_append]
        push_neg at h
        split_ifs with hc
        · rw [hc, lineBytes_nil] at h
          omega
        · omega

lemma wrapWords_flatten (maxW : Nat) (ws : List Word) :
    (wrapWords maxW ws).flatten = ws := by
  unfold wrapWords
  rw [wrap_flatten_aux]
  simp

lemma wrapWords_good (maxW : Nat) (ws : List Word) :
    ∀ l ∈ wrapWords maxW ws, lineBytes l ≤ maxW ∨ ∃ w ∈ ws, l = [w] :=
  wrap_good_aux maxW ws ws [] [] (fun _ h => h) (by simp)
    (Or.inl (by rw [lineBytes_nil]; exact Nat.zero_le _))

lemma dwStr_le_strBytes (dw : Char → Nat) (hdw : ∀ c, dw c ≤ c.utf8Size)
    (w : Word) : dwStr dw w ≤ strBytes w := by
  unfold dwStr strBytes
  induction w with
  | nil => simp
  | cons c cs ih =>
      simp only [List.map_cons, List.sum_cons]
      exact Nat.add_le_add (hdw c) ih

lemma space_utf8Size : (' ' : Char).utf8Size = 1 := rfl

lemma strBytes_renderLine (ws : List Word) :
    strBytes (renderLine ws) = lineBytes ws := by
  induction ws with
  | nil => rfl
  | cons w rest ih =>
      cases rest with
      | nil =>
          show strBytes w = lineBytes [w]
          unfold lineBytes
          simp
      | cons x xs =>
          have hr : renderLine (w :: x :: xs) = w ++ ' ' :: renderLine (x :: xs) := rfl
          rw [hr]
          have h1 : strBytes (w ++ ' ' :: renderLine (x :: xs)) =
              strBytes w + 1 + strBytes (renderLine (x :: xs)) := by
            unfold strBytes
            simp only [List.map_append, List.map_cons, List.sum_append,
              List.sum_cons, space_utf8Size]
            omega
          rw [h1, ih]
          unfold lineBytes
          simp only [List.map_cons, List.sum_cons, List.length_cons]
          omega

lemma one_le_utf8Size (c : Char) : 1 ≤ c.utf8Size := by
  unfold Char.utf8Size
  dsimp only
  split_ifs <;> simp

lemma wrapAll_flatten (maxW : Nat) (srcLines : List (List Word)) :
    ((srcLines.map (wrapWords maxW)).flatten).flatten = srcLines.flatten := by
  induction srcLines with
  | nil => rfl
  | cons l rest ih =>
      simp only [List.map_cons, List.flatten_cons, List.flatten_append,
        wrapWords_flatten, ih]

/-- C4: with `maxLineWidth width = ⌊width·0.9⌋`, every body line the
wrap produces either occupies at most that many display columns — for
any per-char column measure bounded by the UTF-8 byte count, which the
`unicode-width` table is — or consists of a single input word; and the
wrap never breaks a word: flattening the produced lines gives back
exactly the input words in order. -/
theorem wrap_invariant (dw : Char → Nat) (hdw : ∀ c, dw c ≤ c.utf8Size)
    (width : Nat) (srcLines : List (List Word)) :
    (∀ l ∈ wrapBody (maxLineWidth width) srcLines,
        dwStr dw (renderLine l) ≤ maxLineWidth width ∨
          ∃ w ∈ srcLines.flatten, l = [w]) ∧
    (wrapBody (maxLineWidth width) srcLines).flatten = srcLines.flatten := by
  unfold wrapBody
  by_cases hempty : (srcLines.map (wrapWords (maxLineWidth width))).flatten = []
  · rw [hempty]
    simp only [if_pos rfl]
    constructor
    · intro l hl
      rw [List.mem_singleton.mp hl]
      left
      show dwStr dw (renderLine []) ≤ maxLineWidth width
      exact Nat.zero_le _
    · have h2 := wrapAll_flatten (maxLineWidth width) srcLines
      rw [hempty] at h2
      simp only [List.flatten_nil] at h2
      rw [← h2]
      rfl
  · rw [if_neg hempty]
    constructor
    · intro l hl
      obtain ⟨group, hgroup, hlg⟩ := List.mem_flatten.mp hl
      obtain ⟨line, hline, hwrap⟩ := List.mem_map.mp hgroup
      subst hwrap
      rcases wrapWords_good (maxLineWidth width) line l hlg with hb | ⟨w, hw, hlw⟩
      · left
        calc dwStr dw (renderLine l) ≤ strBytes (renderLine l) :=
              dwStr_le_strBytes dw hdw _
          _ = lineBytes l := strBytes_renderLine l
          _ ≤ maxLineWidth width := hb
      · exact Or.inr ⟨w, List.mem_flatten.mpr ⟨line, hline, hw⟩, hlw⟩
    · exact wrapAll_flatten (maxLineWidth width) srcLines

/-- C4 witness: a two-word line wrapped at pane width 9 (wrap target
⌊9·0.9⌋ = 8) keeps all words intact, in order. -/
theorem wrap_invariant_witness :
    (wrapBody (maxLineWidth 9)
        [[['h', 'i'], ['t', 'h', 'e', 'r', 'e']]]).flatten =
      ([[['h', 'i'], ['t', 'h', 'e', 'r', 'e']]] :
        List (List Word)).flatten :=
  (wrap_invariant (fun _ => 1) one_le_utf8Size 9
    [[['h', 'i'], ['t', 'h', 'e', 'r', 'e']]]).2

lemma strBytes_append (a b : Word) :
    strBytes (a ++ b) = strBytes a + strBytes b := by
  unfold strBytes
  simp

lemma dwStr_append (dw : Char → Nat) (a b : Word) :
    dwStr dw (a ++ b) = dwStr dw a + dwStr dw b := by
  unfold dwStr
  simp

lemma strBytes_spaces (n : Nat) : strBytes (spaces n) = n := by
  unfold strBytes spaces
  simp [List.map_replicate, space_utf8Size]

lemma dwStr_spaces (dw : Char → Nat) (hsp : dw ' ' = 1) (n : Nat) :
    dwStr dw (spaces n) = n := by
  unfold dwStr spaces
  simp [List.map_replicate, hsp]

/-- C5 counterexample: the accented letter e occupies a single display
column (its true `unicode-width` is 1, matched here by the constant-1
measure) but two UTF-8 bytes, and a self-aligned body line containing it
is padded with `paneWidth - byteLength = 8` spaces, not the
`paneWidth - displayWidth = 9` the claim requires. -/
theorem alignment_counterexample :
    alignBodyLine true 10 ['é'] = List.replicate 8 ' ' ++ ['é'] ∧
    alignBodyLine true 10 ['é'] ≠
      List.replicate (10 - dwStr (fun _ => 1) ['é']) ' ' ++ ['é'] := by
  constructor
  · rfl
  · decide

/-- C5 (amended): for self messages, header and body lines are
right-aligned by prepending `paneWidth - byteLength(line)` spaces (UTF-8
bytes, which equal display columns only for plain ASCII), so their byte
measure after padding is exactly the pane width; attachment-indicator
lines are right-aligned by `paneWidth - displayWidth(line)` spaces, so
their display-column measure after padding is exactly the pane width;
for every other sender all three kinds are left-aligned with no
padding. -/
theorem alignment (dw : Char → Nat) (hsp : dw ' ' = 1) (width : Nat)
    (line header indicator : Word) :
    (strBytes line ≤ width → strBytes (alignBodyLine true width line) = width) ∧
    alignBodyLine false width line = line ∧
    (strBytes header ≤ width → strBytes (alignHeaderLine true width header) = width) ∧
    alignHeaderLine false width header = header ∧
    (dwStr dw indicator ≤ width →
      dwStr dw (alignIndicatorLine dw true width indicator) = width) ∧
    alignIndicatorLine dw false width indicator = indicator := by
  refine ⟨fun hb => ?_, rfl, fun hh => ?_, rfl, fun hi => ?_, rfl⟩
  · unfold alignBodyLine
    rw [if_pos rfl, strBytes_append, strBytes_spaces]
    omega
  · unfold alignHeaderLine
    rw [if_pos rfl, strBytes_append, strBytes_spaces]
    omega
  · unfold alignIndicatorLine
    rw [if_pos rfl, dwStr_append, dwStr_spaces dw hsp]
    omega

/-- C5 witness: under the constant-1 column measure (correct for ASCII
and the space character), a 5-byte body line in a 12-column pane pads up
to exactly 12 bytes. -/
theorem alignment_witness :
    strBytes (alignBodyLine true 12 ['h', 'e', 'l', 'l', 'o']) = 12 :=
  (alignment (fun _ => 1) rfl 12 ['h', 'e', 'l', 'l', 'o'] [] []).1 (by decide)

lemma headerFlags_pair (parse : String → Option DateParts) :
    ∀ (l : List Message) (i : Nat) (s0 : Option String) (t0 : Option DateParts)
      (m1 m2 : Message),
      l[i]? = some m1 → l[i + 1]? = some m2 →
      (headerFlags parse s0 t0 l)[i + 1]? =
        some (showHeader (some (senderName m1)) (parse m1.created_date_time)
          (senderName m2) (parse m2.created_date_time)) := by
  intro l
  induction l with
  | nil =>
      intro i _ _ _ _ h1 _
      simp at h1
  | cons m rest ih =>
      intro i s0 t0 m1 m2 h1 h2
      cases i with
      | zero =>
          have hm : m = m1 := by simpa using h1
          subst hm
          cases rest with
          | nil => simp at h2
          | cons x xs =>
              have hx : x = m2 := by simpa using h2
              subst hx
              simp [headerFlags]
      | succ j =>
          have h1' : rest[j]? = some m1 := by simpa using h1
          have h2' : rest[j + 1]? = some m2 := by simpa using h2
          have hrec := ih j (some (senderName m)) (parse m.created_date_time) m1 m2 h1' h2'
          simpa [headerFlags] using hrec

/-- C7: for consecutively rendered messages whose timestamps both
parse, a header is emitted before the second exactly when the sender
differs or the calendar hour differs; in particular no header appears
for a same-sender, same-hour successor. -/
theorem header_suppression (parse : String → Option DateParts)
    (messages : List Message) (i : Nat) (m1 m2 : Message) (d1 d2 : DateParts)
    (h1 : (renderOrder messages)[i]? = some m1)
    (h2 : (renderOrder messages)[i + 1]? = some m2)
    (hp1 : parse m1.created_date_time = some d1)
    (hp2 : parse m2.created_date_time = some d2) :
    (headerFlags parse none none (renderOrder messages))[i + 1]? =
      some (decide (senderName m2 ≠ senderName m1 ∨ d2 ≠ d1)) := by
  rw [headerFlags_pair parse (renderOrder messages) i none none m1 m2 h1 h2,
    hp1, hp2]
  congr 1
  unfold showHeader
  by_cases hs : senderName m1 = senderName m2 <;> by_cases hd : d2 = d1 <;>
    simp [hs, hd, ne_comm]

/-- C7 witness: two sample messages from the same sender in the same
calendar hour — the second rendered message gets no header. -/
theorem header_suppression_witness :
    (headerFlags sampleParse none none
        (renderOrder [sampleMessage, sampleMessage2]))[1]? =
      some (decide (senderName sampleMessage ≠ senderName sampleMessage2 ∨
        sampleDate ≠ sampleDate)) :=
  header_suppression sampleParse [sampleMessage, sampleMessage2] 0
    sampleMessage2 sampleMessage sampleDate sampleDate
    (by decide) (by decide) (by decide) (by decide)

/-- C8 (code bug): when the bytes for the image the viewer is showing
fail to decode, the merge only clears the loading flag and stores no
failure message in the error slot (`App::set_image_error` exists and the
renderer would show `image_error` in red, but the merge never calls it);
and a failed download posts nothing on the channel at all, so the error
slot cannot be populated from that side either. -/
theorem image_error_not_surfaced :
    (applyImageResult (fun _ => none)
        (App.new.start_viewing_image { name := "pic", url := "u" })
        "u" [0, 1]).image_error = none ∧
    (applyImageResult (fun _ => none)
        (App.new.start_viewing_image { name := "pic", url := "u" })
        "u" [0, 1]).loading_image = false ∧
    imageDownloadTask (some "token") none "u" = none :=
  ⟨rfl, rfl, rfl⟩

lemma retryLoop_zero (f : Nat → Bool) (i : Nat) :
    retryLoop f i 0 = (false, 0) := rfl

lemma retryLoop_succ (f : Nat → Bool) (i b : Nat) :
    retryLoop f i (b + 1) =
      if f i then (true, 1)
      else ((retryLoop f (i + 1) b).1, (retryLoop f (i + 1) b).2 + 1) := rfl

lemma markReadWithRetry_eval (f : Nat → Bool) :
    markReadWithRetry f =
      if f 0 then (true, 1)
      else if f 1 then (true, 2)
      else if f 2 then (true, 3)
      else (false, 3) := by
  show retryLoop f 0 3 = _
  rw [show retryLoop f 0 3 =
      if f 0 then (true, 1)
      else ((retryLoop f 1 2).1, (retryLoop f 1 2).2 + 1) from rfl]
  rw [show retryLoop f 1 2 =
      if f 1 then (true, 1)
      else ((retryLoop f 2 1).1, (retryLoop f 2 1).2 + 1) from rfl]
  rw [show retryLoop f 2 1 =
      if f 2 then (true, 1)
      else ((retryLoop f 3 0).1, (retryLoop f 3 0).2 + 1) from rfl]
  rw [retryLoop_zero]
  cases h0 : f 0 <;> cases h1 : f 1 <;> cases h2 : f 2 <;> simp [h0, h1, h2]

/-- C9: the mark-read retry loop makes at most 3 attempts; when all 3
fail it reports failure after exactly 3 attempts; it stops at the first
success; and mark-read is the only retried operation — each of the
other operations is one-shot: the message-fetch task posts nothing on a
failed token or failed fetch and makes no further attempt, the image
download task posts nothing on a failed token or failed download and
makes no further attempt, and the send task posts nothing on either
channel on a failed token or failed send and makes no further
attempt. -/
theorem mark_read_retry_budget (attemptOk : Nat → Bool) :
    (markReadWithRetry attemptOk).2 ≤ 3 ∧
    ((∀ i, i < 3 → attemptOk i = false) → markReadWithRetry attemptOk = (false, 3)) ∧
    (∀ i, i < 3 → attemptOk i = true → (∀ j, j < i → attemptOk j = false) →
      markReadWithRetry attemptOk = (true, i + 1)) ∧
    (∀ token chat_index,
      messageFetchTask (some token) none chat_index = none) ∧
    (∀ (fetched : Option (List Message)) chat_index,
      messageFetchTask none fetched chat_index = none) ∧
    (∀ token url, imageDownloadTask (some token) none url = none) ∧
    (∀ (downloaded : Option (List Nat)) url,
      imageDownloadTask none downloaded url = none) ∧
    (∀ token (refetched : Option (List Message))
        (chats : Option (List Chat × Option String)) chat_index,
      sendMessageTask (some token) false refetched chats chat_index = (none, none)) ∧
    (∀ (sendOk : Bool) (refetched : Option (List Message))
        (chats : Option (List Chat × Option String)) chat_index,
      sendMessageTask none sendOk refetched chats chat_index = (none, none)) := by
  have he := markReadWithRetry_eval attemptOk
  refine ⟨?_, ?_, ?_, fun _ _ => rfl, fun _ _ => rfl, fun _ _ => rfl,
    fun _ _ => rfl, fun _ _ _ _ => rfl, fun _ _ _ _ => rfl⟩
  · rw [he]
    split_ifs <;> simp
  · intro hall
    rw [he]
    simp [hall 0 (by omega), hall 1 (by omega), hall 2 (by omega)]
  · intro i hi hok hprev
    interval_cases i
    · rw [he]
      simp [hok]
    · rw [he]
      simp [hprev 0 (by omega), hok]
    · rw [he]
      simp [hprev 0 (by omega), hprev 1 (by omega), hok]

/-- C9 witness: an operation failing once then succeeding is retried and
succeeds on the second attempt. -/
theorem mark_read_retry_budget_witness :
    markReadWithRetry (fun i => decide (i = 1)) = (true, 2) :=
  (mark_read_retry_budget (fun i => decide (i = 1))).2.2.1 1 (by omega)
    (by decide)
    (fun j hj => by
      have hj0 : j = 0 := by omega
      subst hj0
      decide)

end TeamsTui
